import Mathlib

/-!
# Verification of the korasense file-ingestion pipeline

Shallow embedding of the two Rust programs in this repository:

* `src/senses/filesense-app/src-tauri/src/main.rs` — the desktop (Tauri)
  variant: `start_watching`, `stop_watching`, `scan_once`, `collect_files`,
  `is_supported_file`, and the per-file upload loop.
* `src/senses/filesense/src/main.rs` — the CLI variant: `should_process`
  and `ingest_file`.

Rust strings are modelled as Lean `String`, machine `usize` counters as
`Nat` (they only ever grow by 1 from 0 up to a list length, so overflow
cannot occur), `Result<T, E>` as `Except E T`, and the filesystem /
network as explicit oracle data supplied to the functions.
-/

/-- The shared ingestion status record (struct `IngestionStatus` in
`filesense-app/src-tauri/src/main.rs`). -/
structure IngestionStatus where
  total_files : Nat
  processed_files : Nat
  current_file : Option String
  is_running : Bool
deriving DecidableEq, Repr

/-- Rust `str::ends_with`: the pattern is a suffix of the string
(byte/char-wise, case-sensitive). -/
def ends_with (p suffix : String) : Bool :=
  suffix.data.isSuffixOf p.data

/-- `is_supported_file` from `filesense-app/src-tauri/src/main.rs`
(lines 281-286): a chain of case-sensitive `ends_with` tests. -/
def is_supported_file (path : String) : Bool :=
  ends_with path ".pdf" ||
  ends_with path ".docx" ||
  ends_with path ".txt" ||
  ends_with path ".md"

/-- The content-type determination inside `start_watching`
(lines 158-169): a case-sensitive `ends_with` chain over the file path. -/
def file_type (file_path : String) : String :=
  if ends_with file_path ".pdf" then "application/pdf"
  else if ends_with file_path ".docx" then
    "application/vnd.openxmlformats-officedocument.wordprocessingml.document"
  else if ends_with file_path ".txt" then "text/plain"
  else if ends_with file_path ".md" then "text/markdown"
  else "application/octet-stream"

/-- Split a character list at every occurrence of `sep` (the semantics of
Rust's `split` with a one-character pattern; always returns at least one
piece). -/
def splitOnChar (sep : Char) : List Char → List (List Char)
  | [] => [[]]
  | c :: rest =>
    let r := splitOnChar sep rest
    if c = sep then [] :: r
    else
      match r with
      | [] => [[c]]
      | h :: t => (c :: h) :: t

/-- ASCII lowercase of one character (Rust `to_lowercase` restricted to
ASCII, which covers every extension compared against here). -/
def charToLower (c : Char) : Char :=
  if 'A' ≤ c && c ≤ 'Z' then Char.ofNat (c.toNat + 32) else c

/-- ASCII lowercase of a string. -/
def strToLower (s : String) : String :=
  ⟨s.data.map charToLower⟩

/-- Final path component, as Rust `Path::file_name` produces for ordinary
file paths: everything after the last `/`. -/
def fileName (p : String) : List Char :=
  (splitOnChar '/' p.data).getLastD p.data

/-- Rust `Path::extension`: the part of the file name after the last dot;
`none` when there is no dot, when the only dot is the leading character
(hidden files like `.bashrc`), or for the special names `.` and `..`. -/
def extension (p : String) : Option String :=
  let name := fileName p
  if name = ['.'] || name = ['.', '.'] then none
  else
    match splitOnChar '.' name with
    | [] => none
    | [_] => none
    | [[], _] => none
    | parts => some ⟨parts.getLastD []⟩

/-- `should_process` from `filesense/src/main.rs` (lines 160-167): the CLI
variant lowercases the extension and accepts five extensions. -/
def should_process (path : String) : Bool :=
  match extension path with
  | some ext =>
    let e := strToLower ext
    e = "txt" || e = "md" || e = "pdf" || e = "doc" || e = "docx"
  | none => false

/-- Result of one HTTP POST as seen by the caller of `reqwest`: either a
transport-level error (the `Err` branch of `send()`) carrying the error's
display text, or a response with a status code and a body.  The body is
the already-resolved text (`response.text()` with its failure folded to
the fallback string, as the source does with `unwrap_or_else`). -/
inductive HttpResult where
  | transportErr (msg : String) : HttpResult
  | response (status : Nat) (body : String) : HttpResult
deriving DecidableEq, Repr

/-- `reqwest::StatusCode::is_success`: the 2xx range `200..=299`. -/
def is_success_status (s : Nat) : Bool :=
  Nat.ble 200 s && Nat.ble s 299

/-- Classified outcome of one upload attempt. -/
inductive UploadOutcome where
  | success : UploadOutcome
  | failure (msg : String) : UploadOutcome
deriving DecidableEq, Repr

/-- Outcome classification of the `match client.post(...).send().await`
block in `start_watching` (lines 186-205): a 2xx response is a success;
a non-2xx response is a failure reported with the status code and the
response body (`"{} - {}"`); a transport error is a failure reported with
the error text.  The source makes exactly one `send` call per file and
never retries. -/
def uploadOutcome : HttpResult → UploadOutcome
  | HttpResult.transportErr e => UploadOutcome.failure e
  | HttpResult.response s body =>
    if is_success_status s then UploadOutcome.success
    else UploadOutcome.failure (toString s ++ " - " ++ body)

/-!
## Filesystem model for `collect_files`

`collect_files` (lines 243-278 of the app source) sees the filesystem
only through `Path::is_file`, `Path::is_dir` and `fs::read_dir`.  A tree
node is therefore one of:

* `file p` — a path for which `is_file` is true;
* `missing p` — a path that is neither a file nor a directory
  (nonexistent, or a special file); `collect_files` returns `Ok(vec![])`
  for such a root and skips such directory entries;
* `unreadable p` — a directory whose `fs::read_dir` fails, so
  `collect_files` on it returns `Err`;
* `errEntry` — a directory entry for which the `read_dir` iterator
  yields `Err`; the source's `let entry = entry?;` aborts the enclosing
  directory at that point;
* `dir p entries` — a readable directory with its entries in iteration
  order.

Paths whose `to_str()` fails (non-UTF-8 paths) are not modelled: every
path is a `String`.
-/

/-- Filesystem tree as observed by `collect_files`. -/
inductive FS where
  | file (path : String) : FS
  | missing (path : String) : FS
  | unreadable (path : String) : FS
  | errEntry : FS
  | dir (path : String) (entries : List FS) : FS

mutual

/-- `collect_files` from `filesense-app/src-tauri/src/main.rs`
(lines 243-278).  A file root is filtered by `is_supported_file`; a
missing root yields `Ok(vec![])` (neither `is_file` nor `is_dir` holds);
an unreadable directory propagates the `fs::read_dir` error with `?`;
a readable directory processes its entries via `collectDir`.  (The
`errEntry` node only arises as a directory entry; as a root we let it
error like an unreadable root.) -/
def collect_files : FS → Except Unit (List String)
  | FS.file p => Except.ok (if is_supported_file p then [p] else [])
  | FS.missing _ => Except.ok []
  | FS.unreadable _ => Except.error ()
  | FS.errEntry => Except.error ()
  | FS.dir _ es => collectDir es

/-- The `for entry in fs::read_dir(path)?` loop of `collect_files`: an
`Err` iterator item aborts the whole directory (discarding what was
already pushed); a file entry is filtered and pushed; an entry that is
neither file nor directory is skipped; a subdirectory is recursed into
with its error, if any, swallowed (`if let Ok(mut subfiles)`). -/
def collectDir : List FS → Except Unit (List String)
  | [] => Except.ok []
  | FS.errEntry :: _ => Except.error ()
  | FS.file p :: rest =>
    (collectDir rest).map
      (fun tail => (if is_supported_file p then [p] else []) ++ tail)
  | FS.missing _ :: rest => collectDir rest
  | fs :: rest =>
    (collectDir rest).map
      (fun tail =>
        (match collect_files fs with
         | Except.ok sub => sub
         | Except.error _ => []) ++ tail)

end

/-- The per-root swallow in `start_watching` (lines 119-124):
`if let Ok(files) = collect_files(&folder)` — an erroring root
contributes nothing. -/
def collectRoot (fs : FS) : List String :=
  match collect_files fs with
  | Except.ok files => files
  | Except.error _ => []

/-- The collection loop of `start_watching` (lines 119-124):
`all_files.extend(files)` over the configured roots in order. -/
def collectAll (roots : List FS) : List String :=
  roots.foldl (fun acc r => acc ++ collectRoot r) []

mutual

/-- All file paths of a tree, in traversal order (specification-side
measure of what is reachable; missing and unreadable subtrees expose no
files). -/
def filesOf : FS → List String
  | FS.file p => [p]
  | FS.missing _ => []
  | FS.unreadable _ => []
  | FS.errEntry => []
  | FS.dir _ es => filesOfDir es

/-- `filesOf` over a list of directory entries. -/
def filesOfDir : List FS → List String
  | [] => []
  | fs :: rest => filesOf fs ++ filesOfDir rest

end

mutual

/-- A tree with no unreadable directory and no erroring iterator entry
anywhere. -/
def errorFree : FS → Bool
  | FS.file _ => true
  | FS.missing _ => true
  | FS.unreadable _ => false
  | FS.errEntry => false
  | FS.dir _ es => errorFreeDir es

/-- `errorFree` over a list of directory entries. -/
def errorFreeDir : List FS → Bool
  | [] => true
  | fs :: rest => errorFree fs && errorFreeDir rest

end

/-!
## The ingestion run of `start_watching`

`start_watching` (lines 94-240) synchronously marks the shared status as
running with zeroed counters and spawns a background task.  The task
collects the files, stores the total, then iterates the files: per file
it re-checks `is_running` under the lock (breaking if false), records the
current file, reads it (`fs::read`), on read success makes exactly one
POST to `/api/ingest`, increments `processed_files` regardless of any
outcome, and emits an `ingestion-progress` event whose payload copies
`total_files` and `processed_files` from the status but hard-codes
`is_running: true` and sets `current_file` to the file just processed.
After the loop it clears `is_running` and `current_file`.

The environment of one loop iteration — whether `fs::read` succeeds,
what the backend answers, and whether `stop_watching` lands before this
iteration's `is_running` check or between that check and the
`processed_files` update — is oracle data carried in a `FileTask`.
(`stop_watching` only ever writes `is_running := false`, so its effect
is fully captured by these two interference points; all status accesses
are under one mutex.)
-/

/-- One file of the run together with its environment oracle. -/
structure FileTask where
  /-- The file path from the collected list. -/
  path : String
  /-- Whether `fs::read(&file_path)` succeeds. -/
  readOk : Bool
  /-- The backend's answer, used when a request is made. -/
  resp : HttpResult
  /-- A `stop_watching` call lands before this iteration's check. -/
  stopBefore : Bool
  /-- A `stop_watching` call lands between the check and the
  `processed_files` update (i.e. while the upload is in flight). -/
  stopDuring : Bool
deriving DecidableEq, Repr

/-- Observable result of the background task: final shared status, the
`ingestion-progress` payloads in emission order, and one entry per POST
actually issued (path with classified outcome), in order. -/
structure LoopResult where
  status : IngestionStatus
  notifs : List IngestionStatus
  uploads : List (String × UploadOutcome)
deriving DecidableEq, Repr

/-- The per-file loop of `start_watching` (lines 135-227). -/
def runLoop : List FileTask → IngestionStatus → LoopResult
  | [], st => ⟨st, [], []⟩
  | t :: rest, st =>
    let st := if t.stopBefore then { st with is_running := false } else st
    if st.is_running then
      let st := { st with current_file := some t.path }
      let ups : List (String × UploadOutcome) :=
        if t.readOk then [(t.path, uploadOutcome t.resp)] else []
      let st := if t.stopDuring then { st with is_running := false } else st
      let st := { st with processed_files := st.processed_files + 1 }
      let notif : IngestionStatus :=
        { total_files := st.total_files
          processed_files := st.processed_files
          current_file := some t.path
          is_running := true }
      let r := runLoop rest st
      ⟨r.status, notif :: r.notifs, ups ++ r.uploads⟩
    else
      ⟨st, [], []⟩

/-- The whole background task (lines 115-237): store the collected
total, run the loop, then clear `is_running` and `current_file`. -/
def runTask (tasks : List FileTask) (st : IngestionStatus) : LoopResult :=
  let st := { st with total_files := tasks.length }
  let r := runLoop tasks st
  ⟨{ r.status with is_running := false, current_file := none }, r.notifs, r.uploads⟩

/-- The synchronous part of `start_watching` (lines 103-109 and the
final `Ok(())` of line 239): unconditionally set `is_running := true`,
zero both counters (there is no already-running check), and return
`Ok(())`; `current_file` is left untouched. -/
def start_watching_sync (st : IngestionStatus) : IngestionStatus × Except String Unit :=
  ({ st with is_running := true, total_files := 0, processed_files := 0 },
   Except.ok ())

/-- `stop_watching` (lines 288-293): set `is_running := false` and
return `Ok(())`. -/
def stop_watching (st : IngestionStatus) : IngestionStatus × Except String Unit :=
  ({ st with is_running := false }, Except.ok ())

/-- `scan_once` (lines 295-305): zero both counters and return `Ok(())`
without touching `is_running` or `current_file` and without spawning
any work. -/
def scan_once (st : IngestionStatus) : IngestionStatus × Except String Unit :=
  ({ st with total_files := 0, processed_files := 0 }, Except.ok ())

/-- A schedule in which no `stop_watching` call lands anywhere. -/
def noStops (tasks : List FileTask) : Bool :=
  tasks.all (fun t => !t.stopBefore && !t.stopDuring)

/-!
## The CLI variant: `ingest_file`

`ingest_file` (`filesense/src/main.rs`, lines 169-206) starts with
`fs::read_to_string(path)`, which fails unless the file's bytes are
valid UTF-8.  The byte contents of the file are oracle data; `validUtf8`
is the UTF-8 validity check of Rust's `str::from_utf8` (RFC 3629:
shortest-form encodings, no surrogates, maximum U+10FFFF), written over
the byte list.  A valid file's decoded contents are represented by its
byte list itself (the decoding is injective and never inspected
afterwards — the content is only shipped in the JSON payload).
-/

/-- A UTF-8 continuation byte `10xxxxxx`. -/
def utf8Cont (b : Nat) : Bool :=
  Nat.ble 128 b && Nat.ble b 191

/-- UTF-8 validity of a byte sequence (the check performed by Rust's
`String::from_utf8` / `fs::read_to_string`). -/
def validUtf8 : List Nat → Bool
  | [] => true
  | b :: rest =>
    if Nat.ble b 127 then validUtf8 rest
    else if Nat.ble 194 b && Nat.ble b 223 then
      match rest with
      | c1 :: r => utf8Cont c1 && validUtf8 r
      | [] => false
    else if b = 224 then
      match rest with
      | c1 :: c2 :: r => (Nat.ble 160 c1 && Nat.ble c1 191) && utf8Cont c2 && validUtf8 r
      | _ => false
    else if (Nat.ble 225 b && Nat.ble b 236) || b = 238 || b = 239 then
      match rest with
      | c1 :: c2 :: r => utf8Cont c1 && utf8Cont c2 && validUtf8 r
      | _ => false
    else if b = 237 then
      match rest with
      | c1 :: c2 :: r => (Nat.ble 128 c1 && Nat.ble c1 159) && utf8Cont c2 && validUtf8 r
      | _ => false
    else if b = 240 then
      match rest with
      | c1 :: c2 :: c3 :: r => (Nat.ble 144 c1 && Nat.ble c1 191) && utf8Cont c2 && utf8Cont c3 && validUtf8 r
      | _ => false
    else if Nat.ble 241 b && Nat.ble b 243 then
      match rest with
      | c1 :: c2 :: c3 :: r => utf8Cont c1 && utf8Cont c2 && utf8Cont c3 && validUtf8 r
      | _ => false
    else if b = 244 then
      match rest with
      | c1 :: c2 :: c3 :: r => (Nat.ble 128 c1 && Nat.ble c1 143) && utf8Cont c2 && utf8Cont c3 && validUtf8 r
      | _ => false
    else false

/-- `fs::read_to_string` with the anyhow context of line 171: errors
(here: invalid UTF-8 contents) become `Err("Could not read file")`. -/
def read_to_string (bytes : List Nat) : Except String (List Nat) :=
  if validUtf8 bytes then Except.ok bytes else Except.error "Could not read file"

/-- `ingest_file` from `filesense/src/main.rs` (lines 169-206), returning
the function's `Result` together with the number of POST requests issued.
The JSON payload fields built from the config, the file name and
`guess_doc_type` do not influence control flow and are elided; `body` is
the already-resolved `response.text()`.  On a transport error, `send()?`
propagates after the one request; a non-2xx response is only printed and
still yields `Ok(())`. -/
def ingest_file (path : String) (bytes : List Nat) (resp : HttpResult) :
    Except String Unit × Nat :=
  match read_to_string bytes with
  | Except.error e => (Except.error e, 0)
  | Except.ok _content =>
    let _file_name := fileName path
    match resp with
    | HttpResult.transportErr e => (Except.error e, 1)
    | HttpResult.response s _body =>
      if is_success_status s then (Except.ok (), 1)
      else (Except.ok (), 1)

/-! ## Helper lemmas -/

theorem ends_with_iff (p s : String) : ends_with p s = true ↔ s.data <:+ p.data :=
  List.isSuffixOf_iff_suffix

/-- Two patterns neither of which is a suffix of the other cannot both be
suffixes of the same path. -/
theorem ends_with_excl {p s t : String} (h : ends_with p s = true)
    (hst : ¬ s.data <:+ t.data) (hts : ¬ t.data <:+ s.data) :
    ends_with p t = false := by
  cases ht : ends_with p t with
  | false => rfl
  | true =>
    rcases List.suffix_or_suffix_of_suffix ((ends_with_iff p s).mp h)
      ((ends_with_iff p t).mp ht) with hc | hc
    · exact absurd hc hst
    · exact absurd hc hts

/-- A path ending in `.doc` is rejected by the app variant's filter. -/
theorem is_supported_file_doc {p : String} (h : ends_with p ".doc" = true) :
    is_supported_file p = false := by
  unfold is_supported_file
  rw [ends_with_excl h (by decide) (by decide),
      ends_with_excl h (by decide) (by decide),
      ends_with_excl h (by decide) (by decide),
      ends_with_excl h (by decide) (by decide)]
  rfl

theorem collectAll_go (roots : List FS) (acc : List String) :
    roots.foldl (fun a r => a ++ collectRoot r) acc = acc ++ collectAll roots := by
  induction roots generalizing acc with
  | nil => simp [collectAll]
  | cons r rest ih =>
    show List.foldl _ (acc ++ collectRoot r) rest = acc ++ collectAll (r :: rest)
    rw [ih]
    have h2 : collectAll (r :: rest) = collectRoot r ++ collectAll rest := by
      show List.foldl _ ([] ++ collectRoot r) rest = _
      rw [ih]; simp
    rw [h2, List.append_assoc]

theorem collectAll_cons (r : FS) (roots : List FS) :
    collectAll (r :: roots) = collectRoot r ++ collectAll roots := by
  rw [collectAll, List.foldl_cons, collectAll_go]
  simp

theorem collectAll_append (xs ys : List FS) :
    collectAll (xs ++ ys) = collectAll xs ++ collectAll ys := by
  induction xs with
  | nil => simp [collectAll]
  | cons x rest ih => simp [collectAll_cons, ih]

/-- An unreadable subdirectory entry contributes nothing; sibling
entries are unaffected. -/
theorem collectDir_drop_unreadable (e1 e2 : List FS) (p : String) :
    collectDir (e1 ++ FS.unreadable p :: e2) = collectDir (e1 ++ e2) := by
  induction e1 with
  | nil =>
    show collectDir (FS.unreadable p :: e2) = collectDir e2
    simp only [collectDir, collect_files]
    cases collectDir e2 <;> rfl
  | cons x rest ih =>
    cases x <;> simp only [List.cons_append, collectDir, List.append_eq, ih]

/-- A subdirectory entry whose own collection fails contributes nothing;
sibling entries are unaffected. -/
theorem collectDir_drop_errdir (e1 e2 : List FS) (q : String) (es : List FS)
    (h : collect_files (FS.dir q es) = Except.error ()) :
    collectDir (e1 ++ FS.dir q es :: e2) = collectDir (e1 ++ e2) := by
  induction e1 with
  | nil =>
    show collectDir (FS.dir q es :: e2) = collectDir e2
    simp only [collectDir, h]
    cases collectDir e2 <;> rfl
  | cons x rest ih =>
    cases x <;> simp only [List.cons_append, collectDir, List.append_eq, ih]

mutual

/-- On an error-free tree, `collect_files` succeeds and returns exactly
the reachable files that pass `is_supported_file`, in traversal order. -/
theorem collect_files_errorFree (fs : FS) (h : errorFree fs = true) :
    collect_files fs = Except.ok ((filesOf fs).filter is_supported_file) := by
  match fs with
  | FS.file p =>
    simp only [collect_files, filesOf, List.filter]
    cases hp : is_supported_file p <;> simp [hp]
  | FS.missing p => simp [collect_files, filesOf]
  | FS.unreadable p => simp [errorFree] at h
  | FS.errEntry => simp [errorFree] at h
  | FS.dir p es =>
    have ih := collectDir_errorFree es (by simpa [errorFree] using h)
    simpa [collect_files, filesOf] using ih

/-- `collect_files_errorFree` for the entries of one directory. -/
theorem collectDir_errorFree (es : List FS) (h : errorFreeDir es = true) :
    collectDir es = Except.ok ((filesOfDir es).filter is_supported_file) := by
  match es with
  | [] => simp [collectDir, filesOfDir]
  | fs :: rest =>
    have h1 : errorFree fs = true := by
      have := h; simp [errorFreeDir, Bool.and_eq_true] at this; exact this.1
    have h2 : errorFreeDir rest = true := by
      have := h; simp [errorFreeDir, Bool.and_eq_true] at this; exact this.2
    have ihr := collectDir_errorFree rest h2
    match fs with
    | FS.file p =>
      simp only [collectDir, ihr, Except.map, filesOfDir, filesOf,
        List.filter_append]
      cases hp : is_supported_file p <;> simp [List.filter, hp]
    | FS.missing p =>
      simpa [collectDir, filesOfDir, filesOf] using ihr
    | FS.unreadable p => simp [errorFree] at h1
    | FS.errEntry => simp [errorFree] at h1
    | FS.dir q es2 =>
      have ihf := collect_files_errorFree (FS.dir q es2) h1
      simp only [collectDir, ihf, ihr, Except.map, filesOfDir,
        List.filter_append]

end

/-- Once `is_running` is false, the loop does nothing at all. -/
theorem runLoop_not_running (ts : List FileTask) (st : IngestionStatus)
    (h : st.is_running = false) : runLoop ts st = ⟨st, [], []⟩ := by
  cases ts with
  | nil => rfl
  | cons t rest =>
    obtain ⟨tf, pf, cf, ir⟩ := st
    simp only [IngestionStatus.is_running] at h
    subst h
    simp [runLoop]

/-- A stop that lands before the check makes the loop break immediately:
the only state change is `is_running := false`, and no notification or
upload happens for this or any later file. -/
theorem runLoop_stopBefore (t : FileTask) (rest : List FileTask)
    (st : IngestionStatus) (h : t.stopBefore = true) :
    runLoop (t :: rest) st = ⟨{ st with is_running := false }, [], []⟩ := by
  simp [runLoop, h]


/-- One full iteration of the loop when the check passes: the current
file is recorded, one upload is attempted iff the read succeeds,
`processed_files` is incremented regardless of the outcome, and the
emitted notification copies the counters but hard-codes
`is_running := true`. -/
theorem runLoop_cons_run (t : FileTask) (rest : List FileTask) (st : IngestionStatus)
    (hb : t.stopBefore = false) (hr : st.is_running = true) :
    runLoop (t :: rest) st =
      (let st2 : IngestionStatus :=
        { total_files := st.total_files
          processed_files := st.processed_files + 1
          current_file := some t.path
          is_running := !t.stopDuring }
      let r := runLoop rest st2
      ⟨r.status,
       { total_files := st.total_files, processed_files := st.processed_files + 1,
         current_file := some t.path, is_running := true } :: r.notifs,
       (if t.readOk then [(t.path, uploadOutcome t.resp)] else []) ++ r.uploads⟩) := by
  cases hd : t.stopDuring <;> simp [runLoop, hb, hr, hd]

theorem runLoop_total (ts : List FileTask) (st : IngestionStatus) :
    (runLoop ts st).status.total_files = st.total_files := by
  induction ts generalizing st with
  | nil => rfl
  | cons t rest ih =>
    by_cases hb : t.stopBefore = true
    · rw [runLoop_stopBefore t rest st hb]
    · have hb' : t.stopBefore = false := by simpa using hb
      cases hr : st.is_running with
      | false => rw [runLoop_not_running _ _ hr]
      | true =>
        rw [runLoop_cons_run t rest st hb' hr]
        simpa using ih _

theorem runLoop_spec (ts : List FileTask) (st : IngestionStatus) :
    ∃ k, k ≤ ts.length ∧
      (runLoop ts st).notifs.map IngestionStatus.current_file =
        (ts.take k).map (fun t => some t.path) ∧
      (runLoop ts st).notifs.map IngestionStatus.processed_files =
        List.range' (st.processed_files + 1) k ∧
      (runLoop ts st).notifs.map IngestionStatus.total_files =
        List.replicate k st.total_files ∧
      (runLoop ts st).notifs.map IngestionStatus.is_running =
        List.replicate k true ∧
      (runLoop ts st).uploads =
        ((ts.take k).filter (fun t => t.readOk)).map
          (fun t => (t.path, uploadOutcome t.resp)) ∧
      (runLoop ts st).status.processed_files = st.processed_files + k := by
  induction ts generalizing st with
  | nil => exact ⟨0, by simp [runLoop]⟩
  | cons t rest ih =>
    by_cases hb : t.stopBefore = true
    · refine ⟨0, by simp [runLoop_stopBefore t rest st hb]⟩
    · have hb' : t.stopBefore = false := by simpa using hb
      cases hr : st.is_running with
      | false => exact ⟨0, by simp [runLoop_not_running _ _ hr]⟩
      | true =>
        rw [runLoop_cons_run t rest st hb' hr]
        obtain ⟨k, hk, h1, h2, h3, h4, h5, h6⟩ := ih
          { total_files := st.total_files
            processed_files := st.processed_files + 1
            current_file := some t.path
            is_running := !t.stopDuring }
        refine ⟨k + 1, by simpa using Nat.succ_le_succ hk, ?_, ?_, ?_, ?_, ?_, ?_⟩
        · simpa [List.take_succ_cons] using h1
        · simpa [List.range'_succ, Nat.add_assoc] using h2
        · simpa [List.replicate_succ] using h3
        · simpa [List.replicate_succ] using h4
        · cases ho : t.readOk <;>
            simp [List.take_succ_cons, List.filter_cons, ho, h5]
        · simpa [Nat.add_assoc, Nat.add_comm 1 k] using h6

theorem runLoop_noStops (ts : List FileTask) (st : IngestionStatus)
    (h : noStops ts = true) (hr : st.is_running = true) :
    (runLoop ts st).status.is_running = true ∧
    (runLoop ts st).status.processed_files = st.processed_files + ts.length ∧
    (runLoop ts st).notifs.length = ts.length ∧
    (runLoop ts st).uploads =
      (ts.filter (fun t => t.readOk)).map
        (fun t => (t.path, uploadOutcome t.resp)) := by
  induction ts generalizing st with
  | nil => simpa [runLoop] using hr
  | cons t rest ih =>
    have ht : (!t.stopBefore && !t.stopDuring) = true ∧ noStops rest = true := by
      simpa [noStops, List.all_cons, Bool.and_eq_true] using h
    have hb : t.stopBefore = false := by
      rcases ht with ⟨hx, -⟩
      cases hsb : t.stopBefore <;> simp [hsb] at hx ⊢
    have hd : t.stopDuring = false := by
      rcases ht with ⟨hx, -⟩
      cases hsd : t.stopDuring <;> simp [hsd] at hx ⊢
    rw [runLoop_cons_run t rest st hb hr]
    obtain ⟨i1, i2, i3, i4⟩ := ih
      { total_files := st.total_files
        processed_files := st.processed_files + 1
        current_file := some t.path
        is_running := !t.stopDuring } ht.2 (by simp [hd])
    refine ⟨by simpa using i1, ?_, by simpa using i3, ?_⟩
    · simpa [Nat.add_assoc, Nat.add_comm 1 rest.length] using i2
    · cases ho : t.readOk <;> simp [List.filter_cons, ho, i4]

theorem runLoop_append (xs ys : List FileTask) (st : IngestionStatus) :
    runLoop (xs ++ ys) st =
      ⟨(runLoop ys (runLoop xs st).status).status,
       (runLoop xs st).notifs ++ (runLoop ys (runLoop xs st).status).notifs,
       (runLoop xs st).uploads ++ (runLoop ys (runLoop xs st).status).uploads⟩ := by
  induction xs generalizing st with
  | nil => simp [runLoop]
  | cons t rest ih =>
    by_cases hb : t.stopBefore = true
    · rw [List.cons_append, runLoop_stopBefore t (rest ++ ys) st hb,
        runLoop_stopBefore t rest st hb,
        runLoop_not_running ys { st with is_running := false } rfl]
      rfl
    · have hb' : t.stopBefore = false := by simpa using hb
      cases hr : st.is_running with
      | false =>
        rw [List.cons_append, runLoop_not_running _ _ hr,
          runLoop_not_running (t :: rest) _ hr, runLoop_not_running ys _ hr]
        rfl
      | true =>
        rw [List.cons_append, runLoop_cons_run t (rest ++ ys) st hb' hr,
          runLoop_cons_run t rest st hb' hr]
        simp [ih]

/-- Ordering helper: the loop can only increase `processed_files`. -/
theorem runLoop_processed_ge (ts : List FileTask) (st : IngestionStatus) :
    st.processed_files ≤ (runLoop ts st).status.processed_files := by
  obtain ⟨k, -, -, -, -, -, -, h6⟩ := runLoop_spec ts st
  omega

/-! ## Claims -/

/-- C7: for every uploaded file, the content-type hint follows the fixed
table — `.pdf → application/pdf`, `.docx → officedocument wordprocessing
mimetype`, `.txt → text/plain`, `.md → text/markdown`, anything else →
generic octet-stream. -/
theorem file_type_table (p : String) :
    (ends_with p ".pdf" = true → file_type p = "application/pdf") ∧
    (ends_with p ".docx" = true → file_type p =
      "application/vnd.openxmlformats-officedocument.wordprocessingml.document") ∧
    (ends_with p ".txt" = true → file_type p = "text/plain") ∧
    (ends_with p ".md" = true → file_type p = "text/markdown") ∧
    (ends_with p ".pdf" = false → ends_with p ".docx" = false →
     ends_with p ".txt" = false → ends_with p ".md" = false →
     file_type p = "application/octet-stream") := by
  refine ⟨?_, ?_, ?_, ?_, ?_⟩
  · intro h; simp [file_type, h]
  · intro h
    have e1 : ends_with p ".pdf" = false :=
      @ends_with_excl p ".docx" ".pdf" h (by decide) (by decide)
    simp [file_type, h, e1]
  · intro h
    have e1 : ends_with p ".pdf" = false :=
      @ends_with_excl p ".txt" ".pdf" h (by decide) (by decide)
    have e2 : ends_with p ".docx" = false :=
      @ends_with_excl p ".txt" ".docx" h (by decide) (by decide)
    simp [file_type, h, e1, e2]
  · intro h
    have e1 : ends_with p ".pdf" = false :=
      @ends_with_excl p ".md" ".pdf" h (by decide) (by decide)
    have e2 : ends_with p ".docx" = false :=
      @ends_with_excl p ".md" ".docx" h (by decide) (by decide)
    have e3 : ends_with p ".txt" = false :=
      @ends_with_excl p ".md" ".txt" h (by decide) (by decide)
    simp [file_type, h, e1, e2, e3]
  · intro h1 h2 h3 h4; simp [file_type, h1, h2, h3, h4]

/-- Witness for C7 at concrete paths of each kind. -/
theorem file_type_table_witness :
    file_type "a.pdf" = "application/pdf" ∧
    file_type "b.docx" =
      "application/vnd.openxmlformats-officedocument.wordprocessingml.document" ∧
    file_type "c.txt" = "text/plain" ∧
    file_type "d.md" = "text/markdown" ∧
    file_type "e.jpg" = "application/octet-stream" :=
  ⟨(file_type_table "a.pdf").1 (by decide),
   (file_type_table "b.docx").2.1 (by decide),
   (file_type_table "c.txt").2.2.1 (by decide),
   (file_type_table "d.md").2.2.2.1 (by decide),
   (file_type_table "e.jpg").2.2.2.2 (by decide) (by decide) (by decide) (by decide)⟩

/-- C6: an upload outcome is a success exactly when the response status
is in the 2xx success range; a non-success status yields a failure whose
message is the status code plus the response body; a transport error
yields a failure carrying the error text; and per run at most one
request is ever issued per reached file (in list order, no retry). -/
theorem upload_outcome_classification :
    (∀ s b, uploadOutcome (HttpResult.response s b) = UploadOutcome.success ↔
       (200 ≤ s ∧ s ≤ 299)) ∧
    (∀ e, uploadOutcome (HttpResult.transportErr e) = UploadOutcome.failure e) ∧
    (∀ s b, ¬ (200 ≤ s ∧ s ≤ 299) →
       uploadOutcome (HttpResult.response s b) =
         UploadOutcome.failure (toString s ++ " - " ++ b)) ∧
    (∀ (ts : List FileTask) (st : IngestionStatus), ∃ k, k ≤ ts.length ∧
       (runLoop ts st).uploads =
         ((ts.take k).filter (fun t => t.readOk)).map
           (fun t => (t.path, uploadOutcome t.resp))) := by
  have hble : ∀ s, is_success_status s = true ↔ (200 ≤ s ∧ s ≤ 299) := by
    intro s
    simp [is_success_status, Bool.and_eq_true, Nat.ble_eq]
  refine ⟨?_, fun e => rfl, ?_, ?_⟩
  · intro s b
    constructor
    · intro h
      by_contra hc
      have hf : is_success_status s = false := by
        cases hs : is_success_status s with
        | false => rfl
        | true => exact absurd ((hble s).mp hs) hc
      simp [uploadOutcome, hf] at h
    · intro h
      have : is_success_status s = true := (hble s).mpr h
      simp [uploadOutcome, this]
  · intro s b h
    have hf : is_success_status s = false := by
      cases hs : is_success_status s with
      | false => rfl
      | true => exact absurd ((hble s).mp hs) h
    simp [uploadOutcome, hf]
  · intro ts st
    obtain ⟨k, hk, -, -, -, -, h5, -⟩ := runLoop_spec ts st
    exact ⟨k, hk, h5⟩

/-- Witness for C6 at concrete responses and a concrete one-file run. -/
theorem upload_outcome_classification_witness :
    uploadOutcome (HttpResult.response 200 "ok") = UploadOutcome.success ∧
    uploadOutcome (HttpResult.transportErr "connection refused") =
      UploadOutcome.failure "connection refused" ∧
    uploadOutcome (HttpResult.response 404 "not found") =
      UploadOutcome.failure "404 - not found" :=
  ⟨(upload_outcome_classification.1 200 "ok").mpr (by decide),
   upload_outcome_classification.2.1 "connection refused",
   upload_outcome_classification.2.2.1 404 "not found" (by decide)⟩

/-- C10: the CLI `ingest_file` reads the file with
`fs::read_to_string`, so a file whose bytes are not valid UTF-8 makes it
return an error before any network request: zero POSTs are issued. -/
theorem ingest_file_invalid_utf8_no_request (path : String) (bytes : List Nat)
    (resp : HttpResult) (h : validUtf8 bytes = false) :
    ingest_file path bytes resp = (Except.error "Could not read file", 0) := by
  simp [ingest_file, read_to_string, h]

/-- Witness for C10: the first bytes of a PDF file (`%PDF` followed by a
binary byte `0xFF`) are not valid UTF-8 and are rejected with no request
made. -/
theorem ingest_file_invalid_utf8_no_request_witness :
    validUtf8 [37, 80, 68, 70, 255] = false ∧
    ingest_file "/d/doc.pdf" [37, 80, 68, 70, 255]
      (HttpResult.response 200 "ok") = (Except.error "Could not read file", 0) :=
  ⟨by decide,
   ingest_file_invalid_utf8_no_request "/d/doc.pdf" [37, 80, 68, 70, 255]
     (HttpResult.response 200 "ok") (by decide)⟩

/-- C1 counterexample: invoking `start_watching` while a run is active
(`is_running = true`, 5 of 10 files processed) is not rejected and not a
no-op — it returns `Ok(())` and resets both `processed_files` and
`total_files` of the in-progress run to 0. -/
theorem start_watching_busy_resets_counters :
    (start_watching_sync ⟨10, 5, some "/docs/a.txt", true⟩).2 = Except.ok () ∧
    (start_watching_sync ⟨10, 5, some "/docs/a.txt", true⟩).1 =
      ⟨0, 0, some "/docs/a.txt", true⟩ :=
  ⟨rfl, rfl⟩

/-- C1 (amended): `start_watching` never rejects: whatever the current
status — idle or mid-run — it returns `Ok(())`, sets `is_running := true`,
resets both counters to 0, and the spawned task then runs to completion
(processing every collected file when no stop is requested). -/
theorem start_watching_always_starts_run (st : IngestionStatus)
    (tasks : List FileTask) (h : noStops tasks = true) :
    (start_watching_sync st).2 = Except.ok () ∧
    (start_watching_sync st).1.is_running = true ∧
    (start_watching_sync st).1.processed_files = 0 ∧
    (start_watching_sync st).1.total_files = 0 ∧
    (runTask tasks (start_watching_sync st).1).status.processed_files =
      tasks.length := by
  refine ⟨rfl, rfl, rfl, rfl, ?_⟩
  have := runLoop_noStops tasks
    { (start_watching_sync st).1 with total_files := tasks.length } h rfl
  simpa [runTask, start_watching_sync] using this.2.1

/-- Witness for C1 (amended): starting from a busy status with a
one-file schedule. -/
theorem start_watching_always_starts_run_witness :
    noStops [(⟨"/d/a.txt", true, HttpResult.response 200 "", false, false⟩ :
      FileTask)] = true ∧
    (runTask [(⟨"/d/a.txt", true, HttpResult.response 200 "", false, false⟩ :
        FileTask)]
      (start_watching_sync ⟨10, 5, some "/x", true⟩).1).status.processed_files
      = 1 :=
  ⟨by decide,
   (start_watching_always_starts_run ⟨10, 5, some "/x", true⟩
     [⟨"/d/a.txt", true, HttpResult.response 200 "", false, false⟩]
     (by decide)).2.2.2.2⟩

/-- C2 counterexample: `a.PDF` and `b.doc` have extensions in the
claimed case-insensitive set `{pdf, docx, doc, txt, md}`, yet the app
collector's filter rejects both (it is case-sensitive and has no `.doc`
arm), so a root containing exactly these two files collects nothing;
the CLI filter, by contrast, does accept `b.doc`. -/
theorem supported_file_case_counterexample :
    (extension "/r/a.PDF").map strToLower = some "pdf" ∧
    is_supported_file "/r/a.PDF" = false ∧
    (extension "/r/b.doc").map strToLower = some "doc" ∧
    is_supported_file "/r/b.doc" = false ∧
    should_process "/r/b.doc" = true ∧
    collectAll [FS.dir "/r" [FS.file "/r/a.PDF", FS.file "/r/b.doc"]] = [] := by
  refine ⟨by decide, by decide, by decide, by decide, by decide, by decide⟩

/-- C2 (amended): on an error-free tree the app collector returns
exactly the reachable files accepted by `is_supported_file`, which holds
precisely of paths ending case-sensitively in `.pdf`, `.docx`, `.txt` or
`.md` (in particular every path ending in `.doc` is rejected); the CLI
variant instead accepts exactly the files whose extension lowercased is
one of `txt`, `md`, `pdf`, `doc`, `docx`. -/
theorem collector_exact_filter (fs : FS) (p : String)
    (h : errorFree fs = true) :
    collect_files fs = Except.ok ((filesOf fs).filter is_supported_file) ∧
    (is_supported_file p = true ↔
      (ends_with p ".pdf" = true ∨ ends_with p ".docx" = true ∨
       ends_with p ".txt" = true ∨ ends_with p ".md" = true)) ∧
    (ends_with p ".doc" = true → is_supported_file p = false) ∧
    (should_process p = true ↔ ∃ e, extension p = some e ∧
      (strToLower e = "txt" ∨ strToLower e = "md" ∨ strToLower e = "pdf" ∨
       strToLower e = "doc" ∨ strToLower e = "docx")) := by
  refine ⟨collect_files_errorFree fs h, ?_, is_supported_file_doc, ?_⟩
  · simp only [is_supported_file, Bool.or_eq_true]
    tauto
  · cases hx : extension p with
    | none => simp [should_process, hx]
    | some e =>
      simp only [should_process, hx, Bool.or_eq_true, decide_eq_true_eq,
        Option.some.injEq]
      constructor
      · intro hy
        exact ⟨e, rfl, by tauto⟩
      · rintro ⟨e2, rfl, hy⟩
        tauto

/-- Witness for C2 (amended): a concrete error-free tree and the path
`x.doc`. -/
theorem collector_exact_filter_witness :
    errorFree (FS.dir "/r" [FS.file "/r/a.txt", FS.file "/r/c.jpg",
      FS.dir "/r/s" [FS.file "/r/s/d.md"]]) = true ∧
    collect_files (FS.dir "/r" [FS.file "/r/a.txt", FS.file "/r/c.jpg",
      FS.dir "/r/s" [FS.file "/r/s/d.md"]]) =
      Except.ok ["/r/a.txt", "/r/s/d.md"] ∧
    is_supported_file "x.doc" = false :=
  ⟨by decide,
   (collector_exact_filter (FS.dir "/r" [FS.file "/r/a.txt",
      FS.file "/r/c.jpg", FS.dir "/r/s" [FS.file "/r/s/d.md"]]) "x.doc"
      (by decide)).1,
   (collector_exact_filter (FS.dir "/r" [FS.file "/r/a.txt",
      FS.file "/r/c.jpg", FS.dir "/r/s" [FS.file "/r/s/d.md"]]) "x.doc"
      (by decide)).2.2.1 (by decide)⟩

/-- C3: every file the loop reaches without having observed a stop
signal increments `processed_files` by exactly 1, regardless of whether
the read or the upload succeeds or fails (the head task's `readOk`,
`resp` and `stopDuring` are arbitrary); consequently a run that sees no
stop ends with `processed_files` equal to the `total_files` computed at
run start. -/
theorem processed_counts_every_reached_file :
    (∀ (t : FileTask) (rest : List FileTask) (st : IngestionStatus),
       t.stopBefore = false → st.is_running = true →
       (runLoop (t :: rest) st).notifs.head?.map
          IngestionStatus.processed_files = some (st.processed_files + 1)) ∧
    (∀ (tasks : List FileTask) (st : IngestionStatus), noStops tasks = true →
       (runTask tasks (start_watching_sync st).1).status.processed_files =
           tasks.length ∧
       (runTask tasks (start_watching_sync st).1).status.total_files =
           tasks.length) := by
  constructor
  · intro t rest st hb hr
    rw [runLoop_cons_run t rest st hb hr]
    rfl
  · intro tasks st h
    constructor
    · have := runLoop_noStops tasks
        { (start_watching_sync st).1 with total_files := tasks.length } h rfl
      simpa [runTask, start_watching_sync] using this.2.1
    · have := runLoop_total tasks
        { (start_watching_sync st).1 with total_files := tasks.length }
      simpa [runTask] using this

/-- Witness for C3: one reached file with a failing read still counts,
and a stop-free two-file run (one upload failing) ends with
`processed = total = 2`. -/
theorem processed_counts_every_reached_file_witness :
    (runLoop [(⟨"/d/a.txt", false, HttpResult.transportErr "boom", false,
        false⟩ : FileTask)] ⟨1, 0, none, true⟩).notifs.head?.map
      IngestionStatus.processed_files = some 1 ∧
    (runTask [(⟨"/d/a.txt", true, HttpResult.response 500 "err", false,
        false⟩ : FileTask),
      ⟨"/d/b.md", false, HttpResult.response 200 "", false, false⟩]
      (start_watching_sync ⟨0, 0, none, false⟩).1).status.processed_files = 2 :=
  ⟨processed_counts_every_reached_file.1
     ⟨"/d/a.txt", false, HttpResult.transportErr "boom", false, false⟩
     [] ⟨1, 0, none, true⟩ (by decide) (by decide),
   (processed_counts_every_reached_file.2
     [⟨"/d/a.txt", true, HttpResult.response 500 "err", false, false⟩,
      ⟨"/d/b.md", false, HttpResult.response 200 "", false, false⟩]
     ⟨0, 0, none, false⟩ (by decide)).1⟩

/-- C4: `stop_watching` always returns `Ok(())`, only clears
`is_running`, and is idempotent; a loop iteration that observes
`is_running = false` (or a stop landed just before its check) breaks
immediately with no further notification or upload; the task always
ends with `is_running = false` and `current_file = none`; and a stop
landing while an upload is in flight does not prevent that file's
upload from completing (cancellation is only observed between files). -/
theorem stop_idempotent_and_cooperative_cancel :
    (∀ st : IngestionStatus, (stop_watching st).2 = Except.ok () ∧
       (stop_watching st).1.is_running = false ∧
       stop_watching (stop_watching st).1 = stop_watching st) ∧
    (∀ (ts : List FileTask) (st : IngestionStatus), st.is_running = false →
       runLoop ts st = ⟨st, [], []⟩) ∧
    (∀ (t : FileTask) (ts : List FileTask) (st : IngestionStatus),
       t.stopBefore = true →
       runLoop (t :: ts) st = ⟨(stop_watching st).1, [], []⟩) ∧
    (∀ (ts : List FileTask) (st : IngestionStatus),
       (runTask ts st).status.is_running = false ∧
       (runTask ts st).status.current_file = none) ∧
    (∀ (t : FileTask) (ts : List FileTask) (st : IngestionStatus),
       t.stopBefore = false → st.is_running = true → t.readOk = true →
       (runLoop (t :: ts) st).uploads.take 1 =
         [(t.path, uploadOutcome t.resp)] ∧
       (runLoop (t :: ts) st).notifs.head?.isSome = true) := by
  refine ⟨fun st => ⟨rfl, rfl, rfl⟩, runLoop_not_running, ?_, ?_, ?_⟩
  · intro t ts st h
    rw [runLoop_stopBefore t ts st h]
    rfl
  · intro ts st
    exact ⟨rfl, rfl⟩
  · intro t ts st hb hr ho
    rw [runLoop_cons_run t ts st hb hr]
    simp [ho]

/-- Witness for C4: cooperative-cancellation facts at concrete inputs:
a stop before the check suppresses everything, a stop during the upload
does not suppress that upload. -/
theorem stop_idempotent_and_cooperative_cancel_witness :
    runLoop [(⟨"/d/a.txt", true, HttpResult.response 200 "", true, false⟩ :
        FileTask)] ⟨1, 0, none, true⟩ =
      ⟨(stop_watching ⟨1, 0, none, true⟩).1, [], []⟩ ∧
    (runLoop [(⟨"/d/a.txt", true, HttpResult.response 200 "", false, true⟩ :
        FileTask)] ⟨1, 0, none, true⟩).uploads.take 1 =
      [("/d/a.txt", uploadOutcome (HttpResult.response 200 ""))] :=
  ⟨stop_idempotent_and_cooperative_cancel.2.2.1
     ⟨"/d/a.txt", true, HttpResult.response 200 "", true, false⟩
     [] ⟨1, 0, none, true⟩ (by decide),
   (stop_idempotent_and_cooperative_cancel.2.2.2.2
     ⟨"/d/a.txt", true, HttpResult.response 200 "", false, true⟩
     [] ⟨1, 0, none, true⟩ (by decide) (by decide) (by decide)).1⟩

/-- C5 counterexample: with a single file whose upload is in flight when
`stop_watching` lands, the status at emission time has
`is_running = false`, yet the emitted notification reports
`is_running = true` — the notification does not carry the latest
snapshot. -/
theorem notification_stale_is_running :
    (runLoop [(⟨"/d/a.txt", true, HttpResult.response 200 "", false, true⟩ :
        FileTask)] ⟨1, 0, none, true⟩).status.is_running = false ∧
    (runLoop [(⟨"/d/a.txt", true, HttpResult.response 200 "", false, true⟩ :
        FileTask)] ⟨1, 0, none, true⟩).notifs.map
      IngestionStatus.is_running = [true] := by
  refine ⟨by decide, by decide⟩

/-- C5 (amended): one notification is emitted per completed file, in
processing order, carrying the current `total_files` and
`processed_files` and the file just processed; `processed_files` in the
k-th notification is exactly k (so it is non-decreasing and equals the
number of notifications emitted so far); but the `is_running` field of
every notification is the constant `true`, not the latest value. -/
theorem notifications_order_and_counts (ts : List FileTask)
    (st : IngestionStatus) (h0 : st.processed_files = 0) :
    ∃ k, k ≤ ts.length ∧
      (runTask ts st).notifs.map IngestionStatus.current_file =
        (ts.take k).map (fun t => some t.path) ∧
      (runTask ts st).notifs.map IngestionStatus.processed_files =
        List.range' 1 k ∧
      (runTask ts st).notifs.map IngestionStatus.total_files =
        List.replicate k ts.length ∧
      (runTask ts st).notifs.map IngestionStatus.is_running =
        List.replicate k true := by
  obtain ⟨k, hk, h1, h2, h3, h4, -, -⟩ :=
    runLoop_spec ts { st with total_files := ts.length }
  exact ⟨k, hk, by simpa [runTask] using h1,
    by simpa [runTask, h0] using h2,
    by simpa [runTask] using h3,
    by simpa [runTask] using h4⟩

/-- Witness for C5 (amended): a two-file run in which the second file is
never reached because of a stop emits exactly one notification, with
`processed_files = 1` and `is_running = true`. -/
theorem notifications_order_and_counts_witness :
    (runTask [(⟨"/d/a.txt", true, HttpResult.response 200 "", false,
        false⟩ : FileTask),
      ⟨"/d/b.md", true, HttpResult.response 200 "", true, false⟩]
      ⟨0, 0, none, true⟩).notifs.map IngestionStatus.processed_files =
      List.range' 1 1 ∧
    (runTask [(⟨"/d/a.txt", true, HttpResult.response 200 "", false,
        false⟩ : FileTask),
      ⟨"/d/b.md", true, HttpResult.response 200 "", true, false⟩]
      ⟨0, 0, none, true⟩).notifs.map IngestionStatus.is_running =
      List.replicate 1 true := by
  obtain ⟨k, hk, h1, h2, h3, h4⟩ := notifications_order_and_counts
    [⟨"/d/a.txt", true, HttpResult.response 200 "", false, false⟩,
     ⟨"/d/b.md", true, HttpResult.response 200 "", true, false⟩]
    ⟨0, 0, none, true⟩ rfl
  have hkeq : k = 1 := by
    have hr : List.range' 1 k = [1] := by rw [← h2]; rfl
    have hl := congrArg List.length hr
    simpa using hl
  subst hkeq
  exact ⟨h2, h4⟩

/-- C8: a root that is missing or unreadable contributes nothing while
sibling roots' files are still returned; the controller-level collection
is per-root compositional (so no root error ever aborts it — indeed
`collectAll` is total); and inside a directory an unreadable or
internally-failing subdirectory entry loses exactly its own subtree,
leaving sibling entries' results intact. -/
theorem collection_error_isolation :
    (∀ (r1 r2 : List FS) (p : String),
       collectAll (r1 ++ FS.missing p :: r2) = collectAll (r1 ++ r2)) ∧
    (∀ (r1 r2 : List FS) (p : String),
       collectAll (r1 ++ FS.unreadable p :: r2) = collectAll (r1 ++ r2)) ∧
    (∀ (r : FS) (roots : List FS),
       collectAll (r :: roots) = collectRoot r ++ collectAll roots) ∧
    (∀ (e1 e2 : List FS) (p : String),
       collectDir (e1 ++ FS.unreadable p :: e2) = collectDir (e1 ++ e2)) ∧
    (∀ (e1 e2 : List FS) (q : String) (es : List FS),
       collect_files (FS.dir q es) = Except.error () →
       collectDir (e1 ++ FS.dir q es :: e2) = collectDir (e1 ++ e2)) := by
  refine ⟨?_, ?_, collectAll_cons, collectDir_drop_unreadable,
    collectDir_drop_errdir⟩
  · intro r1 r2 p
    rw [collectAll_append, collectAll_cons, collectAll_append]
    rfl
  · intro r1 r2 p
    rw [collectAll_append, collectAll_cons, collectAll_append]
    rfl

/-- Witness for C8: a missing root between two good roots is skipped, an
erroring subdirectory loses only its own subtree, and both evaluate to
the expected concrete file lists. -/
theorem collection_error_isolation_witness :
    collectAll [FS.dir "/a" [FS.file "/a/x.txt"], FS.missing "/b",
      FS.dir "/c" [FS.file "/c/y.md"]] = ["/a/x.txt", "/c/y.md"] ∧
    collect_files (FS.dir "/r/s" [FS.errEntry]) = Except.error () ∧
    collectDir ([FS.file "/r/a.txt"] ++
      FS.dir "/r/s" [FS.errEntry] :: [FS.file "/r/b.md"]) =
      Except.ok ["/r/a.txt", "/r/b.md"] :=
  ⟨(collection_error_isolation.1 [FS.dir "/a" [FS.file "/a/x.txt"]]
      [FS.dir "/c" [FS.file "/c/y.md"]] "/b").trans (by decide),
   rfl,
   (collection_error_isolation.2.2.2.2 [FS.file "/r/a.txt"]
      [FS.file "/r/b.md"] "/r/s" [FS.errEntry] rfl).trans rfl⟩

/-- C9 counterexample: the registered `scan_once` command zeroes
`processed_files` (and `total_files`) of a mid-run status without
starting any run — `is_running` stays `true` and nothing is spawned —
so `processed_files` does not reset "exactly when a new run starts",
and it can decrease (5 to 0) while a run is active. -/
theorem scan_once_resets_processed :
    (scan_once ⟨10, 5, some "/docs/a.txt", true⟩).1 =
      ⟨0, 0, some "/docs/a.txt", true⟩ ∧
    (scan_once ⟨10, 5, some "/docs/a.txt", true⟩).2 = Except.ok () :=
  ⟨rfl, rfl⟩

/-- C9 (amended): within a run driven only by `start_watching`,
`stop_watching` and the loop itself (no further `start_watching` or
`scan_once` call): `processed_files` starts at 0 (`start_watching`
resets it), never exceeds `total_files` once `total_files` is set to the
collected count, and is monotonically non-decreasing over the loop's
progress; `scan_once`, however, also resets it to 0 without starting a
run. -/
theorem status_invariants_within_run :
    (∀ st : IngestionStatus, (start_watching_sync st).1.processed_files = 0) ∧
    (∀ st : IngestionStatus, (scan_once st).1.processed_files = 0 ∧
       (scan_once st).1.is_running = st.is_running) ∧
    (∀ (tasks : List FileTask) (st : IngestionStatus),
       st.processed_files = 0 → st.total_files = tasks.length →
       ∀ k, (runLoop (tasks.take k) st).status.processed_files ≤
         st.total_files) ∧
    (∀ (tasks : List FileTask) (st : IngestionStatus) (k j : Nat), k ≤ j →
       (runLoop (tasks.take k) st).status.processed_files ≤
         (runLoop (tasks.take j) st).status.processed_files) ∧
    (∀ (tasks : List FileTask) (st : IngestionStatus),
       st.processed_files = 0 →
       (runTask tasks st).status.processed_files ≤
         (runTask tasks st).status.total_files) := by
  refine ⟨fun st => rfl, fun st => ⟨rfl, rfl⟩, ?_, ?_, ?_⟩
  · intro tasks st h0 hT k
    obtain ⟨i, hi, -, -, -, -, -, h6⟩ := runLoop_spec (tasks.take k) st
    have hlen : (tasks.take k).length ≤ tasks.length := by
      simp [List.length_take]
    omega
  · intro tasks st k j hkj
    rw [show j = k + (j - k) by omega, List.take_add, runLoop_append]
    exact runLoop_processed_ge _ _
  · intro tasks st h0
    obtain ⟨i, hi, -, -, -, -, -, h6⟩ :=
      runLoop_spec tasks { st with total_files := tasks.length }
    have ht := runLoop_total tasks { st with total_files := tasks.length }
    have h0q : ({ st with total_files := tasks.length } :
      IngestionStatus).processed_files = 0 := h0
    have htq : ({ st with total_files := tasks.length } :
      IngestionStatus).total_files = tasks.length := rfl
    simp only [runTask]
    omega

/-- Witness for C9 (amended): a two-file run checked at prefixes 1 and 2. -/
theorem status_invariants_within_run_witness :
    (runLoop ([(⟨"/d/a.txt", true, HttpResult.response 200 "", false,
        false⟩ : FileTask),
      ⟨"/d/b.md", true, HttpResult.response 500 "err", false, false⟩].take 1)
      ⟨2, 0, none, true⟩).status.processed_files ≤ 2 ∧
    (runLoop ([(⟨"/d/a.txt", true, HttpResult.response 200 "", false,
        false⟩ : FileTask),
      ⟨"/d/b.md", true, HttpResult.response 500 "err", false, false⟩].take 1)
      ⟨2, 0, none, true⟩).status.processed_files ≤
    (runLoop ([(⟨"/d/a.txt", true, HttpResult.response 200 "", false,
        false⟩ : FileTask),
      ⟨"/d/b.md", true, HttpResult.response 500 "err", false, false⟩].take 2)
      ⟨2, 0, none, true⟩).status.processed_files :=
  ⟨status_invariants_within_run.2.2.1
     [⟨"/d/a.txt", true, HttpResult.response 200 "", false, false⟩,
      ⟨"/d/b.md", true, HttpResult.response 500 "err", false, false⟩]
     ⟨2, 0, none, true⟩ rfl rfl 1,
   status_invariants_within_run.2.2.2.1
     [⟨"/d/a.txt", true, HttpResult.response 200 "", false, false⟩,
      ⟨"/d/b.md", true, HttpResult.response 500 "err", false, false⟩]
     ⟨2, 0, none, true⟩ 1 2 (by decide)⟩
